import Mathlib

/-
Formal model of the pytorch-deepdream repository (files src/deepdream.py,
src/utils/video_utils.py, src/downsize.py).

The repository's entry points call `deep_dream_static_image`, whose neural
forward/backward pass depends on an external autodiff engine and pretrained
weights; those parts are treated as opaque parameters, while the control flow,
the array arithmetic and the error handling that surround them are embedded
faithfully, line by line, from the Python source.  Machine floats are modelled
by exact rationals.
-/

namespace DeepDream

/- ------------------------------------------------------------------ -/
/- Python positional/keyword argument binding (for the call sites of
   deep_dream_static_image).                                          -/
/- ------------------------------------------------------------------ -/

/-- Python call binding for a function all of whose parameters are
positional-or-keyword with no default values: binding succeeds iff the
positional arguments do not overflow the parameter list, the keyword arguments
name pairwise-distinct parameters that were not already bound positionally,
and every parameter ends up bound.  CPython raises `TypeError` exactly when
this predicate fails. -/
def callBinds (params : List String) (npos : Nat) (kw : List String) : Prop :=
  npos ≤ params.length ∧ kw.Nodup ∧
  (∀ k ∈ kw, k ∈ params.drop npos) ∧
  (∀ p ∈ params.drop npos, p ∈ kw)

instance (params : List String) (npos : Nat) (kw : List String) :
    Decidable (callBinds params npos kw) := by
  unfold callBinds; infer_instance

/-- Parameter list of `def deep_dream_static_image(model, config, img)`
(src/deepdream.py line 71): three required positional parameters, no
defaults. -/
def deep_dream_static_image_params : List String := ["model", "config", "img"]

/-- Call site in deep_dream_video_ouroboros (src/deepdream.py line 142):
`deep_dream_static_image(config, frame)` — two positional arguments, no
keywords. -/
def ouroboros_dream_call : Nat × List String := (2, [])

/-- Call site in deep_dream_video (src/deepdream.py line 186):
`deep_dream_static_image(config, frame)`. -/
def video_dream_call : Nat × List String := (2, [])

/-- Call site in the static-image branch of `__main__`
(src/deepdream.py, bottom): `deep_dream_static_image(config, img=None)` —
one positional argument and the keyword `img`. -/
def static_main_dream_call : Nat × List String := (1, ["img"])

/-- Call site in deep_dream_video_from_noise (src/deepdream.py):
`deep_dream_static_image(model, config, frame)` — the only call site that
passes all three arguments. -/
def noise_dream_call : Nat × List String := (3, [])

/- ------------------------------------------------------------------ -/
/- extract_frames (src/utils/video_utils.py lines 50-67).             -/
/- ------------------------------------------------------------------ -/

/-- Result dictionary of extract_frames. `subprocessInvoked` records that the
external transcoding tool was run to dump the frames. -/
structure FrameMetadata where
  pattern : String
  fps : Nat
  subprocessInvoked : Bool
deriving DecidableEq, Repr

/-- Ambient system facts extract_frames depends on: whether `ffmpeg` is on the
system path (`shutil.which`) and the fps that `cv.VideoCapture(...).get(CAP_PROP_FPS)`
reports for the input video, already truncated by `int(...)`. -/
structure SysState where
  ffmpegOnPath : Bool
  videoFps : Nat
deriving DecidableEq, Repr

/-- extract_frames (src/utils/video_utils.py lines 50-67): if ffmpeg is on the
system path, invoke it as a subprocess to dump frames matching
`os.path.join(dump_dir, 'frame_%6d.jpg')` and return the metadata dictionary
with that pattern and the video's fps; otherwise raise.  `os.path.join` of a
directory and a bare file name is modelled as concatenation with the
separator. -/
def extract_frames (sys : SysState) (dump_dir : String) :
    Except String FrameMetadata :=
  if sys.ffmpegOnPath then
    Except.ok { pattern := dump_dir ++ "/frame_%6d.jpg"
              , fps := sys.videoFps
              , subprocessInvoked := true }
  else
    Except.error "ffmpeg not found in the system path, aborting."

/-- Whether an Except value is a success. -/
def isOkB : Except String FrameMetadata → Bool
  | Except.ok _ => true
  | Except.error _ => false

/- ------------------------------------------------------------------ -/
/- clipped_zoom (src/deepdream.py lines 208-250), shape semantics.    -/
/- ------------------------------------------------------------------ -/

/-- Round half to even (the rounding used by `numpy.round` and Python 3
`round`), producing an integer. -/
def npRound (x : ℚ) : Int :=
  let f := ⌊x⌋
  let r := x - (f : ℚ)
  if r < 1/2 then f
  else if 1/2 < r then f + 1
  else if f % 2 = 0 then f else f + 1

/-- Length of the Python slice `a:b` of a sequence of length `n`: negative
indices count from the end of the sequence and out-of-range indices are
clipped. -/
def pySliceLen (n : Nat) (a b : Int) : Nat :=
  let norm := fun (i : Int) => if i < 0 then max 0 ((n : Int) + i) else min i (n : Int)
  (max 0 (norm b - norm a)).toNat

/-- Output length of `scipy.ndimage.zoom` along one axis: the rounded product
of the input length and the zoom factor (`int(round(d * zf))`). -/
def zoomDim (d : Nat) (zf : ℚ) : Nat := (npRound ((d : ℚ) * zf)).toNat

/-- Height (equally, width) of `clipped_zoom(img, zoom_factor)`
(src/deepdream.py lines 208-250) as a function of the corresponding input
dimension, for a positive zoom factor (scipy rejects non-positive zoom
factors).  Zooming out writes the zoomed image into `np.zeros_like(img)`, so
the shape is the input's; zooming in crops `img[top:top+zh, left:left+zw]`,
re-zooms the crop, and slices the result with `out[trim_top:trim_top+h, ...]`
where `trim_top = (out.shape[0] - h) // 2` (Python floor division, possibly
negative); `zoom_factor == 1` returns the input itself. -/
def clipped_zoom_dim (d : Nat) (zf : ℚ) : Nat :=
  if zf < 1 then
    d
  else if 1 < zf then
    let zd := npRound ((d : ℚ) / zf)
    let top := Int.fdiv ((d : Int) - zd) 2
    let crop := pySliceLen d top (top + zd)
    let odim := zoomDim crop zf
    let trim := Int.fdiv ((odim : Int) - (d : Int)) 2
    pySliceLen odim trim (trim + (d : Int))
  else
    d

/- ------------------------------------------------------------------ -/
/- gradient_ascent (src/deepdream.py lines 24-68), steps 3-5.         -/
/- ------------------------------------------------------------------ -/

/-- Arithmetic mean of a list of rationals (`torch.mean` of a tensor, seen as
the flat list of its elements); the empty tensor gives 0/0 = 0 in ℚ. -/
def listMean (xs : List ℚ) : ℚ := xs.sum / (xs.length : ℚ)

/-- Bessel-corrected sample variance, the square of `torch.std` (torch's
default `correction=1`). -/
def sampleVar (xs : List ℚ) : ℚ :=
  (xs.map (fun x => (x - listMean xs) ^ 2)).sum / ((xs.length : ℚ) - 1)

/-- Step 3 of gradient_ascent (src/deepdream.py lines 48-61): smooth the raw
input gradient, then normalise the result by subtracting its mean and dividing
by its standard deviation.  The smoothing (`utils.CascadeGaussianSmoothing`,
defined in utils/utils.py outside src/) is an opaque parameter; `gstd` stands
for the value of `torch.std(smooth_grad)`, the nonnegative square root of the
Bessel-corrected sample variance, which exact rational arithmetic cannot
produce in general, so theorems constrain it by `gstd ^ 2 = sampleVar (smooth
grad)`. -/
def smoothNormGrad (smooth : List ℚ → List ℚ) (gstd : ℚ) (grad : List ℚ) :
    List ℚ :=
  let sg := smooth grad
  let m := listMean sg
  (sg.map (fun x => x - m)).map (fun x => x / gstd)

/-- Step 4 of gradient_ascent (src/deepdream.py line 64):
`input_tensor.data += config['lr'] * smooth_grad`, elementwise, before the
clamp of step 5. -/
def updatedData (lr : ℚ) (data g : List ℚ) : List ℚ :=
  (data.zip g).map (fun p => p.1 + lr * p.2)

/-- Clamp of step 5 (src/deepdream.py line 68):
`torch.max(torch.min(input_tensor, UPPER_IMAGE_BOUND), LOWER_IMAGE_BOUND)`,
elementwise.  The bounds live in utils/constants.py (outside src/) and
broadcast one scalar per colour channel; `lower` and `upper` are the scalars
an element is compared against. -/
def clampData (lower upper : ℚ) (data : List ℚ) : List ℚ :=
  data.map (fun x => max (min x upper) lower)

/-- Steps 3-5 of gradient_ascent (src/deepdream.py lines 48-68) acting on the
image data and its gradient buffer: smooth and normalise the gradient, add
`lr` times it to the data, zero the gradient buffer
(`input_tensor.grad.data.zero_()`), and clamp the data into the image bounds.
Returns (new data, new gradient buffer). -/
def gradient_ascent (lr lower upper : ℚ) (smooth : List ℚ → List ℚ)
    (gstd : ℚ) (data grad : List ℚ) : List ℚ × List ℚ :=
  (clampData lower upper (updatedData lr data (smoothNormGrad smooth gstd grad)),
   grad.map (fun _ => 0))

/- ------------------------------------------------------------------ -/
/- deep_dream_static_image (src/deepdream.py lines 71-122): layer
   lookup and the nested pyramid / gradient-ascent loops.             -/
/- ------------------------------------------------------------------ -/

/-- Python `list.index` (src/deepdream.py line 74): position of the first
occurrence of `x` in `l`; `none` models the ValueError raised when `x` is
absent. -/
def listIndex (l : List String) (x : String) : Option Nat :=
  l.findIdx? (fun y => y == x)

/-- The layer-id lookup of deep_dream_static_image (line 74):
`[model.layer_names.index(layer_name) for layer_name in config['layers_to_use']]`.
The comprehension raises (`none`) as soon as one requested layer name is
missing from `model.layer_names`; the surrounding try/except (lines 73-78)
turns that into an early `return`. -/
def layerIdsToUse (layer_names : List String) : List String → Option (List Nat)
  | [] => some []
  | name :: rest =>
    match listIndex layer_names name, layerIdsToUse layer_names rest with
    | some i, some is => some (i :: is)
    | _, _ => none

/-- The inner gradient-ascent loop of deep_dream_static_image (lines
103-110): starting at iteration index `i` with `r` iterations remaining,
apply the jittered gradient-ascent step once per iteration.  Returns the
final tensor together with the number of gradient_ascent invocations
performed. -/
def gaIterLoop {Img : Type} (step : Nat → Img → Img) (i : Nat) :
    Nat → Img → Img × Nat
  | 0, t => (t, 0)
  | r + 1, t =>
    let rest := gaIterLoop step (i + 1) r (step i t)
    (rest.1, rest.2 + 1)

/-- The outer pyramid loop of deep_dream_static_image (lines 95-118):
starting at pyramid level `level` with `l` levels remaining, resize the image
for the current level (cv.resize to utils.get_new_shape, plus the optional
padding for fixed-resolution models), run the inner gradient-ascent loop for
`niters` iterations, and continue with the resulting image at the next level.
Returns the final image together with the total number of gradient_ascent
invocations. -/
def pyramidLoop {Img : Type} (resize : Nat → Img → Img)
    (step : Nat → Nat → Img → Img) (niters : Nat) (level : Nat) :
    Nat → Img → Img × Nat
  | 0, t => (t, 0)
  | l + 1, t =>
    let r1 := gaIterLoop (step level) 0 niters (resize level t)
    let r2 := pyramidLoop resize step niters (level + 1) l r1.1
    (r2.1, r1.2 + r2.2)

/-- deep_dream_static_image (src/deepdream.py lines 71-122) for a provided
(non-None) input image: look up the requested layers, returning `(none, 0)`
when the lookup raises (the except branch prints two messages and returns
None, with no pyramid level and no gradient-ascent step executed); otherwise
run the pyramid over `pyramid_size` levels with
`num_gradient_ascent_iterations` gradient-ascent iterations per level and
post-process the result (utils.post_process_numpy_img).  The per-level
resize, the jittered gradient-ascent step (which receives the looked-up layer
ids, the pyramid level and the iteration index) and the post-processing are
opaque parameters; the second component of the result counts the
gradient_ascent invocations performed. -/
def deep_dream_static_image {Img : Type}
    (layer_names layers_to_use : List String)
    (pyramid_size num_gradient_ascent_iterations : Nat)
    (resize : Nat → Img → Img) (step : List Nat → Nat → Nat → Img → Img)
    (post : Img → Img) (img : Img) : Option Img × Nat :=
  match layerIdsToUse layer_names layers_to_use with
  | none => (none, 0)
  | some ids =>
    let r := pyramidLoop resize (step ids) num_gradient_ascent_iterations 0
      pyramid_size img
    (some (post r.1), r.2)

/- ------------------------------------------------------------------ -/
/- Random spatial jitter (src/deepdream.py lines 104-110).            -/
/- ------------------------------------------------------------------ -/

/-- numpy.random.randint(low, high) (src/deepdream.py line 104): a draw from
the integers of [low, high); the unspecified randomness is modelled by
reducing an arbitrary natural draw modulo the size of the range. -/
def randint (low high : Int) (draw : Nat) : Int :=
  low + (draw : Int) % (high - low)

/-- torch.roll along one axis: the circular shift moving the element at index
i to index (i + s) mod n, realised as a left-rotation by ((-s) mod n). -/
def roll {α : Type} (s : Int) (xs : List α) : List α :=
  xs.rotate (((-s) % (xs.length : Int)).toNat)

/-- Modelled from the spec: `utils.random_circular_spatial_shift(tensor,
h_shift, w_shift, should_undo)` is defined in utils/utils.py, which is not
under src/.  Per the spec's "random spatial jitter" and its use at
src/deepdream.py lines 105 and 110, it circularly shifts the tensor's two
spatial dimensions by (h_shift, w_shift) via torch.roll, and with
should_undo=True it negates both shifts, undoing a previous shift.  The
spatial layout is modelled as a list of rows. -/
def random_circular_spatial_shift {α : Type} (h_shift w_shift : Int)
    (should_undo : Bool) (t : List (List α)) : List (List α) :=
  let h := if should_undo then -h_shift else h_shift
  let w := if should_undo then -w_shift else w_shift
  (roll h t).map (roll w)

/- ------------------------------------------------------------------ -/
/- deep_dream_video (src/deepdream.py lines 156-204): frame blending. -/
/- ------------------------------------------------------------------ -/

/-- One iteration of the frame loop of deep_dream_video (src/deepdream.py
lines 167-198): blend the loaded frame with the last dreamed frame exactly
when `config['blend'] is not None and last_img is not None`
(`utils.linear_blend`, opaque parameter `blendF`), dream the (possibly
blended) frame, and keep the dreamed frame as the new `last_img`
(`last_img = dreamed_frame`, line 192).  Dreaming is the opaque parameter
`dream`, returning `none` when deep_dream_static_image returns None.  Returns
the new `last_img` together with whether blending occurred. -/
def videoFrameStep {Img : Type} (blend : Option ℚ)
    (blendF : Img → Img → ℚ → Img) (dream : Img → Option Img)
    (last : Option Img) (frame : Img) : Option Img × Bool :=
  match blend, last with
  | some b, some l => (dream (blendF l frame b), true)
  | _, _ => (dream frame, false)

/-- The frame loop of deep_dream_video over the sorted frame list, started
with `last_img = None`, recording for every frame whether it was blended. -/
def videoFrameFlags {Img : Type} (blend : Option ℚ)
    (blendF : Img → Img → ℚ → Img) (dream : Img → Option Img) :
    Option Img → List Img → List Bool
  | _, [] => []
  | last, frame :: rest =>
    let r := videoFrameStep blend blendF dream last frame
    r.2 :: videoFrameFlags blend blendF dream r.1 rest

/- ------------------------------------------------------------------ -/
/- deep_dream_video_ouroboros (src/deepdream.py lines 125-153).       -/
/- ------------------------------------------------------------------ -/

/-- Lower-cased name, for the case-insensitive extension check
(`config['input_name'].lower()`); file names are modelled as lists of
characters so that the check evaluates. -/
def toLowerName (s : List Char) : List Char := s.map Char.toLower

/-- The ouroboros loop (src/deepdream.py lines 139-148): in each of the
`ouroboros_length` iterations, dream the current frame
(deep_dream_static_image, opaque parameter `dream`), save the dreamed frame
(utils.save_and_maybe_display_image), then transform it
(utils.transform_frame, opaque parameter `transform`) and feed the
transformed frame to the next iteration.  Returns the list of saved frames in
order together with the final frame value. -/
def ouroborosLoop {Img : Type} (dream transform : Img → Img) :
    Nat → Img → List Img × Img
  | 0, frame => ([], frame)
  | n + 1, frame =>
    let dreamed := dream frame
    let r := ouroborosLoop dream transform n (transform dreamed)
    (dreamed :: r.1, r.2)

/-- Outcome of deep_dream_video_ouroboros: the saved frames and the fact that
video_utils.create_video_from_intermediate_results ran after the loop. -/
structure OuroborosResult (Img : Type) where
  savedFrames : List Img
  videoCreated : Bool

/-- deep_dream_video_ouroboros (src/deepdream.py lines 125-153): assert that
the input name ends (case-insensitively) with a supported image extension
(SUPPORTED_IMAGE_FORMATS comes from utils/constants.py outside src/ and is a
parameter here), then run the ouroboros loop for `ouroboros_length`
iterations starting from the loaded (or noise) image, and finally assemble
the saved frames into a video. -/
def deep_dream_video_ouroboros {Img : Type} (supported : List (List Char))
    (input_name : List Char) (ouroboros_length : Nat)
    (dream transform : Img → Img) (init : Img) :
    Except String (OuroborosResult Img) :=
  if supported.any (fun ext => ext.isSuffixOf (toLowerName input_name)) then
    let r := ouroborosLoop dream transform ouroboros_length init
    Except.ok { savedFrames := r.1, videoCreated := true }
  else
    Except.error "Expected an image, got another format."

end DeepDream

/- ------------------------------------------------------------------ -/
/- Theorems                                                           -/
/- ------------------------------------------------------------------ -/

namespace DeepDream

/-- C1: the claim that every mode produces its output by calling
deep_dream_static_image with the prepared model and the current image fails on
the code: `deep_dream_static_image` requires the three positional parameters
`(model, config, img)`, yet the ouroboros call site and the video call site
pass only `(config, frame)` and the static-image main branch passes only
`(config, img=None)`, so Python argument binding fails (TypeError) at every
one of the three mode call sites before any image is produced; only the
separate deep_dream_video_from_noise call site binds. -/
theorem c1_mode_calls_do_not_bind :
    ¬ callBinds deep_dream_static_image_params
        ouroboros_dream_call.1 ouroboros_dream_call.2 ∧
    ¬ callBinds deep_dream_static_image_params
        video_dream_call.1 video_dream_call.2 ∧
    ¬ callBinds deep_dream_static_image_params
        static_main_dream_call.1 static_main_dream_call.2 ∧
    callBinds deep_dream_static_image_params
        noise_dream_call.1 noise_dream_call.2 := by
  decide

/-- C8: extract_frames succeeds iff ffmpeg is found on the system path (it
raises otherwise), and on success it has invoked the tool as a subprocess and
returns the metadata dictionary whose `pattern` is the frame dump pattern under
`dump_dir` and whose `fps` is the video's fps. -/
theorem c8_extract_frames_spec (sys : SysState) (dump_dir : String) :
    (isOkB (extract_frames sys dump_dir) = sys.ffmpegOnPath) ∧
    (∀ m : FrameMetadata, extract_frames sys dump_dir = Except.ok m →
      m.pattern = dump_dir ++ "/frame_%6d.jpg" ∧
      m.fps = sys.videoFps ∧
      m.subprocessInvoked = true) := by
  constructor
  · cases h : sys.ffmpegOnPath <;> simp [extract_frames, isOkB, h]
  · intro m hm
    cases h : sys.ffmpegOnPath
    · simp [extract_frames, h] at hm
    · simp [extract_frames, h] at hm
      subst hm
      exact ⟨rfl, rfl, rfl⟩

/-- C8 witness: at a concrete system state with ffmpeg present and fps 30, the
theorem instantiates and every evaluated fact holds. -/
theorem c8_extract_frames_spec_witness :
    (isOkB (extract_frames ⟨true, 30⟩ "tmp") = true) ∧
    (∀ m : FrameMetadata, extract_frames ⟨true, 30⟩ "tmp" = Except.ok m →
      m.pattern = "tmp" ++ "/frame_%6d.jpg" ∧
      m.fps = 30 ∧
      m.subprocessInvoked = true) :=
  c8_extract_frames_spec ⟨true, 30⟩ "tmp"

/-- Sum of a list after subtracting a constant from every element. -/
theorem sum_map_sub (xs : List ℚ) (c : ℚ) :
    (xs.map (fun x => x - c)).sum = xs.sum - xs.length * c := by
  induction xs with
  | nil => simp
  | cons a t ih => simp [ih]; ring

/-- Sum of a list after dividing every element by a constant. -/
theorem sum_map_div (xs : List ℚ) (s : ℚ) :
    (xs.map (fun x => x / s)).sum = xs.sum / s := by
  induction xs with
  | nil => simp
  | cons a t ih => simp [ih, add_div]

/-- Centring a list at its mean makes the sum vanish. -/
theorem sum_map_sub_mean (xs : List ℚ) :
    (xs.map (fun x => x - listMean xs)).sum = 0 := by
  rw [sum_map_sub, listMean]
  rcases Nat.eq_zero_or_pos xs.length with h | h
  · rw [List.length_eq_zero] at h
    simp [h]
  · rw [mul_div_cancel₀ _ (by positivity), sub_self]

/-- The normalised smoothed gradient has mean zero (for any divisor). -/
theorem listMean_smoothNormGrad (smooth : List ℚ → List ℚ) (gstd : ℚ)
    (grad : List ℚ) : listMean (smoothNormGrad smooth gstd grad) = 0 := by
  rw [smoothNormGrad, listMean, sum_map_div, sum_map_sub_mean, zero_div,
    zero_div]

/-- Centring a list at its mean and dividing by (a square root of) its sample
variance yields sample variance one. -/
theorem sampleVar_center_scale (xs : List ℚ) (s : ℚ) (hs : s ≠ 0)
    (hv : s ^ 2 = sampleVar xs) :
    sampleVar ((xs.map (fun x => x - listMean xs)).map (fun x => x / s)) = 1 := by
  have hb : s ^ 2 ≠ 0 := pow_ne_zero 2 hs
  have hn : ((xs.length : ℚ) - 1) ≠ 0 := by
    intro h0
    rw [sampleVar, h0, div_zero] at hv
    exact hb hv
  have mean0 : listMean ((xs.map (fun x => x - listMean xs)).map (fun x => x / s)) = 0 := by
    rw [listMean, sum_map_div, sum_map_sub_mean, zero_div, zero_div]
  rw [sampleVar, mean0]
  simp only [sub_zero, List.length_map]
  have hlist : ((xs.map (fun x => x - listMean xs)).map (fun x => x / s)).map
        (fun x => x ^ 2) =
      (xs.map (fun x => (x - listMean xs) ^ 2)).map (fun y => y / s ^ 2) := by
    simp only [List.map_map]
    congr 1
    funext x
    simp [Function.comp, div_pow]
  rw [hlist, sum_map_div, div_right_comm, ← sampleVar, ← hv, div_self hb]

/-- The elementwise update is the zipWith of data and gradient. -/
theorem updatedData_eq_zipWith (lr : ℚ) (data g : List ℚ) :
    updatedData lr data g = List.zipWith (fun d x => d + lr * x) data g := by
  induction data generalizing g with
  | nil => simp [updatedData]
  | cons a t ih =>
    cases g with
    | nil => simp [updatedData]
    | cons b u =>
      simp only [updatedData, List.zip_cons_cons, List.map_cons,
        List.zipWith_cons_cons] at ih ⊢
      exact congrArg _ (ih u)

/-- C2: after gradient_ascent every element of the image data lies within the
image bounds (the clamp of step 5) and the gradient buffer is identically
zero, provided the lower bound does not exceed the upper bound (which holds
for the normalised-image bounds of utils/constants.py). -/
theorem c2_gradient_ascent_bounds (lr lower upper gstd : ℚ)
    (smooth : List ℚ → List ℚ) (data grad : List ℚ) (h : lower ≤ upper) :
    (∀ x ∈ (gradient_ascent lr lower upper smooth gstd data grad).1,
        lower ≤ x ∧ x ≤ upper) ∧
    (∀ y ∈ (gradient_ascent lr lower upper smooth gstd data grad).2, y = 0) := by
  constructor
  · intro x hx
    simp only [gradient_ascent, clampData, List.mem_map] at hx
    obtain ⟨a, -, rfl⟩ := hx
    exact ⟨le_max_right _ _, max_le (min_le_right _ _) h⟩
  · intro y hy
    simp only [gradient_ascent, List.mem_map] at hy
    obtain ⟨a, -, rfl⟩ := hy
    rfl

/-- C2 witness: at lr = 1, bounds [0, 1], identity smoothing, gstd = 1,
data = [2] and grad = [3], the hypothesis 0 ≤ 1 holds and the theorem
instantiates. -/
theorem c2_gradient_ascent_bounds_witness :
    ((0 : ℚ) ≤ 1) ∧
    ((∀ x ∈ (gradient_ascent 1 0 1 id 1 [2] [3]).1, (0 : ℚ) ≤ x ∧ x ≤ 1) ∧
     (∀ y ∈ (gradient_ascent 1 0 1 id 1 [2] [3]).2, y = 0)) :=
  ⟨by norm_num, c2_gradient_ascent_bounds 1 0 1 1 id [2] [3] (by norm_num)⟩

/-- C3: in every gradient_ascent step the smoothed gradient is normalised to
mean 0 and standard deviation 1 in exact arithmetic (stated as sample variance
1, equivalent for a nonnegative standard deviation), provided
`torch.std(smooth_grad)` is nonzero, and the pre-clamp image update adds
exactly lr times this normalised smoothed gradient, elementwise. -/
theorem c3_gradient_normalisation (lr gstd : ℚ) (smooth : List ℚ → List ℚ)
    (data grad : List ℚ) (hs : gstd ≠ 0)
    (hv : gstd ^ 2 = sampleVar (smooth grad)) :
    listMean (smoothNormGrad smooth gstd grad) = 0 ∧
    sampleVar (smoothNormGrad smooth gstd grad) = 1 ∧
    updatedData lr data (smoothNormGrad smooth gstd grad) =
      List.zipWith (fun d x => d + lr * x) data
        (smoothNormGrad smooth gstd grad) :=
  ⟨listMean_smoothNormGrad smooth gstd grad,
   by rw [smoothNormGrad]; exact sampleVar_center_scale (smooth grad) gstd hs hv,
   updatedData_eq_zipWith lr data _⟩

/-- C3 witness: with identity smoothing, raw gradient [-1, 0, 1] (sample
variance 1), gstd = 1, lr = 1 and data [5, 6, 7], both hypotheses hold and the
theorem instantiates. -/
theorem c3_gradient_normalisation_witness :
    ((1 : ℚ) ≠ 0 ∧ (1 : ℚ) ^ 2 = sampleVar (id [-1, 0, 1])) ∧
    (listMean (smoothNormGrad id 1 [-1, 0, 1]) = 0 ∧
     sampleVar (smoothNormGrad id 1 [-1, 0, 1]) = 1 ∧
     updatedData 1 [5, 6, 7] (smoothNormGrad id 1 [-1, 0, 1]) =
       List.zipWith (fun d x => d + 1 * x) [5, 6, 7]
         (smoothNormGrad id 1 [-1, 0, 1])) :=
  ⟨⟨by norm_num, by norm_num [sampleVar, listMean]⟩,
   c3_gradient_normalisation 1 1 id [5, 6, 7] [-1, 0, 1] (by norm_num)
     (by norm_num [sampleVar, listMean])⟩

/-- The inner loop performs exactly its number of remaining iterations. -/
theorem gaIterLoop_count {Img : Type} (step : Nat → Img → Img) (i r : Nat)
    (t : Img) : (gaIterLoop step i r t).2 = r := by
  induction r generalizing i t with
  | zero => rfl
  | succ r ih => simp [gaIterLoop, ih]

/-- The pyramid loop performs levels-times-iterations gradient-ascent steps. -/
theorem pyramidLoop_count {Img : Type} (resize : Nat → Img → Img)
    (step : Nat → Nat → Img → Img) (niters level l : Nat) (t : Img) :
    (pyramidLoop resize step niters level l t).2 = l * niters := by
  induction l generalizing level t with
  | zero => simp [pyramidLoop]
  | succ l ih =>
    simp only [pyramidLoop, ih, gaIterLoop_count]
    ring

/-- A failing lookup of any single layer name makes the whole comprehension
raise. -/
theorem layerIdsToUse_eq_none (layer_names : List String)
    (layers_to_use : List String) (name : String) (hmem : name ∈ layers_to_use)
    (hfail : listIndex layer_names name = none) :
    layerIdsToUse layer_names layers_to_use = none := by
  induction layers_to_use with
  | nil => cases hmem
  | cons a rest ih =>
    rcases List.mem_cons.1 hmem with rfl | hmem
    · rw [layerIdsToUse, hfail]
    · rw [layerIdsToUse, ih hmem]
      cases listIndex layer_names a <;> rfl

/-- A layer name absent from the model's layer list fails to look up. -/
theorem listIndex_eq_none (layer_names : List String) (name : String)
    (h : name ∉ layer_names) : listIndex layer_names name = none := by
  rw [listIndex, List.findIdx?_eq_none_iff]
  intro x hx
  simp only [beq_eq_false_iff_ne, ne_eq]
  intro rfl_eq
  exact h (rfl_eq ▸ hx)

/-- C4: whenever the layer lookup succeeds, deep_dream_static_image executes
the gradient-ascent step exactly pyramid_size * num_gradient_ascent_iterations
times — the outer loop runs once per pyramid level, resizing the image at
each level, and the inner loop runs num_gradient_ascent_iterations iterations
per level — and returns a (post-processed) image. -/
theorem c4_static_image_step_count {Img : Type}
    (layer_names layers_to_use : List String) (ps ni : Nat)
    (resize : Nat → Img → Img) (step : List Nat → Nat → Nat → Img → Img)
    (post : Img → Img) (img : Img)
    (h : layerIdsToUse layer_names layers_to_use ≠ none) :
    ∃ out : Img,
      deep_dream_static_image layer_names layers_to_use ps ni resize step post
        img = (some out, ps * ni) := by
  rcases hids : layerIdsToUse layer_names layers_to_use with _ | ids
  · exact absurd hids h
  · refine ⟨post (pyramidLoop resize (step ids) ni 0 ps img).1, ?_⟩
    unfold deep_dream_static_image
    rw [hids]
    simp [pyramidLoop_count]

/-- C4 witness: with one available layer that is also the one requested, two
pyramid levels and three iterations per level on a trivial image type, the
lookup succeeds and exactly 2 * 3 steps run. -/
theorem c4_static_image_step_count_witness :
    (layerIdsToUse ["relu4_3"] ["relu4_3"] ≠ none) ∧
    ∃ out : Unit,
      deep_dream_static_image ["relu4_3"] ["relu4_3"] 2 3
        (fun _ t => t) (fun _ _ _ t => t) (fun t => t) () = (some out, 6) :=
  ⟨by decide, c4_static_image_step_count ["relu4_3"] ["relu4_3"] 2 3
    (fun _ t => t) (fun _ _ _ t => t) (fun t => t) () (by decide)⟩

/-- C9: if any requested layer name is missing from the model's layer_names,
the lookup raises, deep_dream_static_image returns None and performs zero
pyramid levels and zero gradient-ascent steps on the input image. -/
theorem c9_static_image_invalid_layer {Img : Type}
    (layer_names layers_to_use : List String) (ps ni : Nat)
    (resize : Nat → Img → Img) (step : List Nat → Nat → Nat → Img → Img)
    (post : Img → Img) (img : Img) (name : String)
    (hmem : name ∈ layers_to_use) (hnot : name ∉ layer_names) :
    deep_dream_static_image layer_names layers_to_use ps ni resize step post
      img = (none, 0) := by
  unfold deep_dream_static_image
  rw [layerIdsToUse_eq_none layer_names layers_to_use name hmem
    (listIndex_eq_none layer_names name hnot)]

/-- C9 witness: requesting layer "mp5" from a model whose only layer is
"relu4_3" returns None with zero steps. -/
theorem c9_static_image_invalid_layer_witness :
    ("mp5" ∈ ["mp5"] ∧ "mp5" ∉ ["relu4_3"]) ∧
    deep_dream_static_image ["relu4_3"] ["mp5"] 2 3
      (fun _ t => t) (fun _ _ _ t => t) (fun t => t) () = (none, 0) :=
  ⟨⟨by decide, by decide⟩,
   c9_static_image_invalid_layer ["relu4_3"] ["mp5"] 2 3
     (fun _ t => t) (fun _ _ _ t => t) (fun t => t) () "mp5"
     (by decide) (by decide)⟩

/-- Rolling preserves the length. -/
theorem roll_length {α : Type} (s : Int) (xs : List α) :
    (roll s xs).length = xs.length := by
  simp [roll]

/-- Rolling by the negated shift undoes a roll. -/
theorem roll_roll_cancel {α : Type} (s : Int) (xs : List α) :
    roll (-s) (roll s xs) = xs := by
  rcases Nat.eq_zero_or_pos xs.length with h0 | hpos
  · rw [List.length_eq_zero] at h0
    subst h0
    simp [roll]
  · have hn : (xs.length : Int) ≠ 0 := by exact_mod_cast hpos.ne'
    have houter : roll (-s) (roll s xs)
        = (roll s xs).rotate ((s % (xs.length : Int)).toNat) := by
      rw [roll, roll_length, neg_neg]
    rw [houter, roll, List.rotate_rotate]
    have ha : 0 ≤ (-s) % (xs.length : Int) := Int.emod_nonneg _ hn
    have hb : 0 ≤ s % (xs.length : Int) := Int.emod_nonneg _ hn
    have hab : ((-s) % (xs.length : Int) + s % (xs.length : Int))
        % (xs.length : Int) = 0 := by
      rw [← Int.add_emod, neg_add_cancel, Int.zero_emod]
    have hnat : (((-s) % (xs.length : Int)).toNat
        + (s % (xs.length : Int)).toNat) % xs.length = 0 := by
      have hcast : ((((-s) % (xs.length : Int)).toNat
          + (s % (xs.length : Int)).toNat : Nat) : Int)
          = (-s) % (xs.length : Int) + s % (xs.length : Int) := by
        push_cast [Int.toNat_of_nonneg ha, Int.toNat_of_nonneg hb]
        ring
      have h2 := hab
      rw [← hcast] at h2
      exact_mod_cast h2
    rw [← List.rotate_mod, hnat, List.rotate_zero]

/-- Rolling commutes with mapping a function over the list. -/
theorem roll_map {α β : Type} (f : α → β) (s : Int) (xs : List α) :
    roll s (xs.map f) = (roll s xs).map f := by
  rw [roll, roll, List.length_map]
  exact (List.map_rotate f xs _).symm

/-- The randint draw lands in [low, high). -/
theorem randint_mem (low high : Int) (draw : Nat) (h : low < high) :
    low ≤ randint low high draw ∧ randint low high draw < high := by
  have hpos : (0 : Int) < high - low := by omega
  have h1 : 0 ≤ (draw : Int) % (high - low) := Int.emod_nonneg _ hpos.ne'
  have h2 : (draw : Int) % (high - low) < high - low :=
    Int.emod_lt_of_pos _ hpos
  unfold randint
  omega

/-- Undoing a circular spatial shift restores the tensor. -/
theorem shift_undo_cancel {α : Type} (h w : Int) (t : List (List α)) :
    random_circular_spatial_shift h w true
      (random_circular_spatial_shift h w false t) = t := by
  simp only [random_circular_spatial_shift, if_pos rfl, Bool.false_eq_true,
    if_neg, ite_true, ite_false]
  rw [roll_map, roll_roll_cancel, List.map_map]
  exact (List.map_congr_left fun a _ => roll_roll_cancel w a).trans
    (List.map_id t)

/-- C5: the random jitter offsets drawn by
`np.random.randint(-spatial_shift_size, spatial_shift_size + 1, 2)` both lie
in [-spatial_shift_size, spatial_shift_size], and undoing the circular shift
after the gradient step is the exact inverse of applying it before, so the
jitter never accumulates across iterations. -/
theorem c5_spatial_shift_jitter {α : Type} (S d1 d2 : Nat)
    (t : List (List α)) :
    (-(S : Int) ≤ randint (-(S : Int)) ((S : Int) + 1) d1 ∧
      randint (-(S : Int)) ((S : Int) + 1) d1 ≤ (S : Int)) ∧
    (-(S : Int) ≤ randint (-(S : Int)) ((S : Int) + 1) d2 ∧
      randint (-(S : Int)) ((S : Int) + 1) d2 ≤ (S : Int)) ∧
    random_circular_spatial_shift (randint (-(S : Int)) ((S : Int) + 1) d1)
      (randint (-(S : Int)) ((S : Int) + 1) d2) true
      (random_circular_spatial_shift (randint (-(S : Int)) ((S : Int) + 1) d1)
        (randint (-(S : Int)) ((S : Int) + 1) d2) false t) = t := by
  have hlt : (-(S : Int)) < (S : Int) + 1 := by
    have : (0 : Int) ≤ (S : Int) := Int.natCast_nonneg S
    omega
  obtain ⟨ha1, hb1⟩ := randint_mem (-(S : Int)) ((S : Int) + 1) d1 hlt
  obtain ⟨ha2, hb2⟩ := randint_mem (-(S : Int)) ((S : Int) + 1) d2 hlt
  exact ⟨⟨ha1, by omega⟩, ⟨ha2, by omega⟩, shift_undo_cancel _ _ t⟩

/-- After any frame with a successfully dreamed result, every later frame is
blended exactly when the blend coefficient is set. -/
theorem videoFrameFlags_some {Img : Type} (blend : Option ℚ)
    (blendF : Img → Img → ℚ → Img) (dream : Img → Option Img)
    (hd : ∀ x, (dream x).isSome) (l : Img) (frames : List Img) :
    videoFrameFlags blend blendF dream (some l) frames
      = frames.map (fun _ => blend.isSome) := by
  induction frames generalizing l with
  | nil => rfl
  | cons f rest ih =>
    cases blend with
    | none =>
      obtain ⟨y, hy⟩ := Option.isSome_iff_exists.mp (hd f)
      simp only [videoFrameFlags, videoFrameStep, hy, List.map_cons,
        Option.isSome_none]
      exact congrArg _ (ih y)
    | some b =>
      obtain ⟨y, hy⟩ := Option.isSome_iff_exists.mp (hd (blendF l f b))
      simp only [videoFrameFlags, videoFrameStep, hy, List.map_cons,
        Option.isSome_some]
      exact congrArg _ (ih y)

/-- C6: in the deep_dream_video frame loop a loaded frame is blended with the
previously dreamed frame if and only if the blend coefficient is not None and
a previous dreamed frame exists, and (when dreaming always yields a frame,
i.e. the layer lookup succeeds) the recorded blend decisions over a whole
video are: the first frame unblended, every later frame blended exactly when
the coefficient is set. -/
theorem c6_video_blend_iff {Img : Type} (blend : Option ℚ)
    (blendF : Img → Img → ℚ → Img) (dream : Img → Option Img)
    (hd : ∀ x, (dream x).isSome) (frames : List Img) :
    (∀ (last : Option Img) (f : Img),
        (videoFrameStep blend blendF dream last f).2
          = (blend.isSome && last.isSome)) ∧
    videoFrameFlags blend blendF dream none frames
      = match frames with
        | [] => []
        | _ :: rest => false :: rest.map (fun _ => blend.isSome) := by
  constructor
  · intro last f
    cases blend <;> cases last <;> simp [videoFrameStep]
  · cases frames with
    | nil => rfl
    | cons f rest =>
      cases blend with
      | none =>
        obtain ⟨y, hy⟩ := Option.isSome_iff_exists.mp (hd f)
        simp only [videoFrameFlags, videoFrameStep, hy]
        exact congrArg _ (videoFrameFlags_some none blendF dream hd y rest)
      | some b =>
        obtain ⟨y, hy⟩ := Option.isSome_iff_exists.mp (hd f)
        simp only [videoFrameFlags, videoFrameStep, hy]
        exact congrArg _ (videoFrameFlags_some (some b) blendF dream hd y rest)

/-- C6 witness: with a total dreaming function on Nat frames, blend
coefficient 1/2 and three frames, the first frame is unblended and the
remaining two are blended. -/
theorem c6_video_blend_iff_witness :
    (∀ x : Nat, ((fun x : Nat => some x) x).isSome) ∧
    ((∀ (last : Option Nat) (f : Nat),
        (videoFrameStep (some (1/2 : ℚ)) (fun _ b _ => b)
          (fun x => some x) last f).2
          = ((some (1/2 : ℚ)).isSome && last.isSome)) ∧
     videoFrameFlags (some (1/2 : ℚ)) (fun _ b _ => b) (fun x => some x) none
       [1, 2, 3] = [false, true, true]) :=
  ⟨fun _ => rfl,
   c6_video_blend_iff (some (1/2 : ℚ)) (fun _ b _ => b) (fun x => some x)
     (fun _ => rfl) [1, 2, 3]⟩

/-- The ouroboros loop saves, in order, the dream of the i-fold
transform-then-dream image: the frame fed into iteration i+1 is the
transformed dreamed frame, not the saved one. -/
theorem ouroborosLoop_frames {Img : Type} (dream transform : Img → Img)
    (n : Nat) (init : Img) :
    (ouroborosLoop dream transform n init).1
      = (List.range n).map (fun i => dream ((transform ∘ dream)^[i] init)) := by
  induction n generalizing init with
  | zero => rfl
  | succ n ih =>
    rw [List.range_succ_eq_map]
    simp only [ouroborosLoop, List.map_cons, List.map_map,
      Function.iterate_zero, id]
    congr 1
    rw [ih]
    refine List.map_congr_left fun i _ => ?_
    simp only [Function.comp_apply, Function.iterate_succ_apply]

/-- C7: given an input whose name ends (case-insensitively) in a supported
image extension, ouroboros runs exactly ouroboros_length iterations; the i-th
saved frame is the dream of the i-fold transformed-then-dreamed initial
frame — so each iteration dreams, saves, transforms, and feeds the
transformed (not the saved) frame onward — and after the loop the saved
frames are assembled into a video. -/
theorem c7_ouroboros_spec {Img : Type} (supported : List (List Char))
    (input_name : List Char) (n : Nat) (dream transform : Img → Img)
    (init : Img)
    (hext : supported.any (fun ext => ext.isSuffixOf (toLowerName input_name))
      = true) :
    deep_dream_video_ouroboros supported input_name n dream transform init
      = Except.ok
          { savedFrames :=
              (List.range n).map (fun i => dream ((transform ∘ dream)^[i] init))
            , videoCreated := true } ∧
    ((List.range n).map
      (fun i => dream ((transform ∘ dream)^[i] init))).length = n := by
  constructor
  · rw [deep_dream_video_ouroboros, if_pos hext]
    show Except.ok
        (OuroborosResult.mk (ouroborosLoop dream transform n init).1 true) = _
    rw [ouroborosLoop_frames]
  · simp

/-- C7 witness: input name "a.jpg" against the extension list [".jpg"], two
iterations, dreaming +1 and transforming *2 on Nat frames: the saved frames
are [1, 3] (0 dreams to 1, which transforms to 2 and dreams to 3) and the
video is assembled. -/
theorem c7_ouroboros_spec_witness :
    (([['.', 'j', 'p', 'g']] : List (List Char)).any
        (fun ext => ext.isSuffixOf
          (toLowerName ['a', '.', 'j', 'p', 'g'])) = true) ∧
    (deep_dream_video_ouroboros [['.', 'j', 'p', 'g']]
        ['a', '.', 'j', 'p', 'g'] 2 (fun x : Nat => x + 1) (fun x => x * 2) 0
      = Except.ok { savedFrames := [1, 3], videoCreated := true } ∧
     ([1, 3] : List Nat).length = 2) :=
  ⟨by decide,
   c7_ouroboros_spec [['.', 'j', 'p', 'g']] ['a', '.', 'j', 'p', 'g'] 2
     (fun x : Nat => x + 1) (fun x => x * 2) 0 (by decide)⟩

/-- C10: the claim that clipped_zoom preserves height and width for every
zoom factor fails on the code: for a 10-pixel dimension and zoom factor 3 the
crop has `round(10/3) = 3` pixels, the re-zoom yields `round(3*3) = 9 < 10`
pixels, the trim offset `(9-10)//2 = -1` is negative, and the Python slice
`out[-1:9]` of the 9-pixel result keeps a single pixel, so the output is 1
pixel where the input had 10. -/
theorem c10_clipped_zoom_shrinks :
    clipped_zoom_dim 10 3 = 1 ∧ clipped_zoom_dim 10 3 ≠ 10 := by
  have h1 : npRound (((10 : Nat) : ℚ) / 3) = 3 := by norm_num [npRound]
  have h2 : zoomDim 3 3 = 9 := by
    have h : npRound (((3 : Nat) : ℚ) * 3) = 9 := by norm_num [npRound]
    rw [zoomDim, h]; decide
  have hmain : clipped_zoom_dim 10 3 = 1 := by
    rw [clipped_zoom_dim, if_neg (by norm_num), if_pos (by norm_num)]
    simp only [h1]
    have hc : pySliceLen 10 (Int.fdiv ((10 : Nat) - (3 : Int)) 2)
        (Int.fdiv ((10 : Nat) - (3 : Int)) 2 + 3) = 3 := by decide
    rw [hc, h2]
    decide
  exact ⟨hmain, by rw [hmain]; decide⟩

end DeepDream
